import Mathlib

/- Verification of the sysup update orchestrator (src/main.py, src/script.py).

The Python code is shallowly embedded as pure Lean functions.  External
effects (subprocess invocations, collaborator calls, printed lines) are
recorded in an explicit event trace:

  * Event.checkCall s    - the adapter for source s ran its external
                           pending-update check (has_updates / has_new_commits)
  * Event.applyCall s    - the adapter ran its external update command
  * Event.recordUpdate s - StatisticsManager.record_update was invoked for s
                           (the code passes string labels "pacman", the helper
                           name, "flatpak", "git:NAME"; here the label is the
                           structured SourceId)
  * Event.backupCreate   - BackupManager.create_backup was invoked
  * Event.runHooks ph    - HookManager.run_hooks(ph) was invoked
  * Event.notifySend     - NotificationManager.send was invoked
  * Event.printLn msg    - a user-visible status line

Host bundles the ambient facts the code consults: PATH availability
(shutil.which), exit statuses of the external check/update commands, and the
tracked repository list with the filesystem facts about each path. -/

namespace Sysup

/-- Identity of one update source, as distinguished by the adapters. -/
inductive SourceId where
  | pacman : SourceId
  | helper (name : String) : SourceId
  | flatpak : SourceId
  | git (name : String) : SourceId
deriving DecidableEq, Repr

/-- One observable action of a run. -/
inductive Event where
  | printLn (msg : String) : Event
  | checkCall (s : SourceId) : Event
  | applyCall (s : SourceId) : Event
  | recordUpdate (s : SourceId) : Event
  | backupCreate : Event
  | runHooks (phase : String) : Event
  | notifySend : Event
deriving DecidableEq, Repr

/-- Event classifiers used by the theorems. -/
def Event.isPrint : Event → Bool
  | .printLn _ => true
  | _ => false

/-- True for events an adapter itself can emit (no pipeline collaborator). -/
def Event.isSourceEvent : Event → Bool
  | .printLn _ => true
  | .checkCall _ => true
  | .applyCall _ => true
  | .recordUpdate _ => true
  | .backupCreate => false
  | .runHooks _ => false
  | .notifySend => false

def Event.isCheck : Event → Bool
  | .checkCall _ => true
  | _ => false

def Event.isApply : Event → Bool
  | .applyCall _ => true
  | _ => false

def Event.isRecord : Event → Bool
  | .recordUpdate _ => true
  | _ => false

def Event.isHook : Event → Bool
  | .runHooks _ => true
  | _ => false

def Event.isBackup : Event → Bool
  | .backupCreate => true
  | _ => false

def Event.isNotify : Event → Bool
  | .notifySend => true
  | _ => false

/-- Does this event name the given source (check, apply or statistics record)? -/
def eventTouches (s : SourceId) : Event → Bool
  | .checkCall t => decide (t = s)
  | .applyCall t => decide (t = s)
  | .recordUpdate t => decide (t = s)
  | _ => false

/-- Python str.capitalize: first character upper-cased, the rest lower-cased. -/
def pyCapitalize (s : String) : String :=
  match s.data with
  | [] => s
  | c :: cs => String.mk (c.toUpper :: cs.map Char.toLower)

/-- User configuration (main.py UserConfig), restricted to the fields the
orchestrator consults. -/
structure UserConfig where
  enable_pacman : Bool
  enable_aur : Bool
  enable_flatpak : Bool
  enable_git_repos : Bool
  enable_notifications : Bool
  enable_backups : Bool
  parallel_updates : Bool
  noconfirm : Bool
deriving DecidableEq, Repr

/-- Ambient facts about the host consulted by one run: program availability
(shutil.which), exit statuses of the external commands, and the tracked
repository list together with the filesystem facts about each path. -/
structure Host where
  hasHelper : String → Bool
  pacmanHasUpdates : Bool
  pacmanApplyOk : Bool
  aurHasUpdates : String → Bool
  aurApplyOk : String → Bool
  flatpakCheckOk : Bool
  flatpakOutputHasUpdates : Bool
  flatpakApplyOk : Bool
  repos : List String
  pathExists : String → Bool
  isGitRepo : String → Bool
  normalizeRepo : String → String
  repoName : String → String
  repoHasNewCommits : String → Bool
  repoPullOk : String → Bool

/-- Result dictionary of main.py update_system (update_results). -/
structure UpdateResults where
  pacman : Bool
  aur : Bool
  flatpak : Bool
  git_repos : Nat
deriving DecidableEq, Repr

/-- The total_updates sum computed at main.py lines 1096-1101. -/
def totalUpdates (r : UpdateResults) : Nat :=
  (if r.pacman then 1 else 0) + (if r.aur then 1 else 0)
    + (if r.flatpak then 1 else 0) + r.git_repos

/-- Terminal state of a run of update_system. -/
inductive RunStatus where
  | completed : RunStatus
  | cancelled : RunStatus
  | errored : RunStatus
deriving DecidableEq, Repr

/-- Process exit status: normal completion exits 0, KeyboardInterrupt handler
calls sys.exit(0), the generic exception handler calls sys.exit(1). -/
def RunStatus.exitCode : RunStatus → Nat
  | .completed => 0
  | .cancelled => 0
  | .errored => 1

namespace Main

/-- main.py AURManager.has_updates: returns False without any subprocess when
the helper is not on PATH; otherwise runs `HELPER -Qua` (checkCall) and maps
exit 0 to True, CalledProcessError to False. -/
def AURManager.has_updates (h : Host) (helper : String) : Bool × List Event :=
  if h.hasHelper helper then
    if h.aurHasUpdates helper then
      (true, [Event.checkCall (SourceId.helper helper),
              Event.printLn ("Available -> " ++ pyCapitalize helper)])
    else
      (false, [Event.checkCall (SourceId.helper helper),
               Event.printLn ("Already up to date -> " ++ pyCapitalize helper)])
  else (false, [])

/-- main.py AURManager.update: returns False when has_updates is False;
otherwise runs `HELPER -Syu` (applyCall), records statistics on success, and
returns False on CalledProcessError. -/
def AURManager.update (h : Host) (helper : String) (noconfirm : Bool) :
    Bool × List Event :=
  let c := AURManager.has_updates h helper
  if c.1 then
    if h.aurApplyOk helper then
      (true, c.2 ++ [Event.applyCall (SourceId.helper helper),
                     Event.printLn ("Updated -> " ++ pyCapitalize helper),
                     Event.recordUpdate (SourceId.helper helper)])
    else
      (false, c.2 ++ [Event.applyCall (SourceId.helper helper),
                      Event.printLn ("Error updating " ++ helper)])
  else (false, c.2)

/-- main.py PacmanManager.has_updates: runs `checkupdates` (checkCall), exit 0
means updates available. -/
def PacmanManager.has_updates (h : Host) : Bool × List Event :=
  if h.pacmanHasUpdates then
    (true, [Event.checkCall SourceId.pacman, Event.printLn "Available -> Pacman"])
  else
    (false, [Event.checkCall SourceId.pacman,
             Event.printLn "Already up to date -> Pacman"])

/-- main.py PacmanManager.update: check first, then `sudo pacman -Syu`,
recording statistics on success, False on failure. -/
def PacmanManager.update (h : Host) (noconfirm : Bool) : Bool × List Event :=
  let c := PacmanManager.has_updates h
  if c.1 then
    if h.pacmanApplyOk then
      (true, c.2 ++ [Event.applyCall SourceId.pacman,
                     Event.printLn "Updated -> Pacman",
                     Event.recordUpdate SourceId.pacman])
    else
      (false, c.2 ++ [Event.applyCall SourceId.pacman,
                      Event.printLn "Error updating Pacman"])
  else (false, c.2)

/-- main.py FlatpakManager.has_updates: runs `flatpak update` captured
(checkCall); CalledProcessError gives False, otherwise the output decides. -/
def FlatpakManager.has_updates (h : Host) : Bool × List Event :=
  if h.flatpakCheckOk then
    if h.flatpakOutputHasUpdates then
      (true, [Event.checkCall SourceId.flatpak,
              Event.printLn "Available -> Flatpak"])
    else
      (false, [Event.checkCall SourceId.flatpak,
               Event.printLn "Already up to date -> Flatpak"])
  else (false, [Event.checkCall SourceId.flatpak])

/-- main.py FlatpakManager.update: check first, then `flatpak update -y`,
recording statistics on success, False on failure. -/
def FlatpakManager.update (h : Host) : Bool × List Event :=
  let c := FlatpakManager.has_updates h
  if c.1 then
    if h.flatpakApplyOk then
      (true, c.2 ++ [Event.applyCall SourceId.flatpak,
                     Event.printLn "Updated -> Flatpak",
                     Event.recordUpdate SourceId.flatpak])
    else
      (false, c.2 ++ [Event.applyCall SourceId.flatpak,
                      Event.printLn "Error updating Flatpak"])
  else (false, c.2)

/-- GitRepository.__init__ validity: the normalized path exists and holds a
.git directory (otherwise the constructor raises ValueError). -/
def GitRepository.isValid (h : Host) (p : String) : Bool :=
  h.pathExists (h.normalizeRepo p) && h.isGitRepo (h.normalizeRepo p)

/-- GitRepository.has_new_commits: fetch plus rev-list (checkCall); any
CalledProcessError yields False. -/
def GitRepository.has_new_commits (h : Host) (p : String) : Bool × List Event :=
  (h.repoHasNewCommits p, [Event.checkCall (SourceId.git (h.repoName p))])

/-- main.py GitRepository.update: check, then `git pull` (applyCall) on
pending commits, False on CalledProcessError. -/
def GitRepository.update (h : Host) (p : String) : Bool × List Event :=
  let c := GitRepository.has_new_commits h p
  let name := pyCapitalize (h.repoName p)
  if c.1 then
    if h.repoPullOk p then
      (true, c.2 ++ [Event.printLn ("Available -> " ++ name),
                     Event.applyCall (SourceId.git (h.repoName p)),
                     Event.printLn ("Updated -> " ++ name)])
    else
      (false, c.2 ++ [Event.printLn ("Available -> " ++ name),
                      Event.applyCall (SourceId.git (h.repoName p)),
                      Event.printLn ("Error updating " ++ name)])
  else (false, c.2 ++ [Event.printLn ("Already up to date -> " ++ name)])

/-- Loop body of main.py RepositoryManager.update_all: skip missing paths,
skip invalid checkouts, otherwise update and record statistics on success;
returns (updated_count, events). -/
def RepositoryManager.update_all_go (h : Host) : List String → Nat × List Event
  | [] => (0, [])
  | p :: rest =>
    let here : Nat × List Event :=
      if h.pathExists p then
        if GitRepository.isValid h p then
          let u := GitRepository.update h p
          if u.1 then
            (1, u.2 ++ [Event.recordUpdate (SourceId.git (h.repoName p))])
          else (0, u.2)
        else (0, [Event.printLn ("Skipping (invalid): " ++ p)])
      else (0, [Event.printLn ("Skipping (not found): " ++ p)])
    let tail := RepositoryManager.update_all_go h rest
    (here.1 + tail.1, here.2 ++ tail.2)

/-- main.py RepositoryManager.update_all. -/
def RepositoryManager.update_all (h : Host) : Nat × List Event :=
  if h.repos.isEmpty then (0, [])
  else
    let r := RepositoryManager.update_all_go h h.repos
    (r.1, Event.printLn "=== Updating Git Repositories ===" :: r.2)

/-- main.py RepositoryManager.add_repo (identical code at script.py lines
429-456): validate and normalize through the GitRepository constructor
(return unchanged on ValueError), return unchanged when already tracked,
otherwise append the normalized path and save. -/
def RepositoryManager.add_repo (h : Host) (repos : List String) (p : String) :
    List String :=
  let np := h.normalizeRepo p
  if h.pathExists np && h.isGitRepo np then
    if np ∈ repos then repos else repos ++ [np]
  else repos

/-- AUR portion of the sequential branch (main.py lines 1063-1071):
iterate yay then paru, skipping unavailable helpers; in dry-run print a
preview line, otherwise run update and OR the result in. -/
def aurSeqLoop (h : Host) (dryRun noconfirm : Bool) : Bool × List Event :=
  List.foldl
    (fun acc helper =>
      if h.hasHelper helper then
        if dryRun then
          (acc.1, acc.2 ++ [Event.printLn ("Would update: " ++ pyCapitalize helper)])
        else
          let r := AURManager.update h helper noconfirm
          (r.1 || acc.1, acc.2 ++ r.2)
      else acc)
    (false, []) ["yay", "paru"]

/-- Sequential branch of main.py update_system (lines 1054-1088).  The third
component is true when PacmanManager's constructor raised (checkupdates not
on PATH with pacman enabled), which the caller turns into the error exit. -/
def seqExec (h : Host) (cfg : UserConfig) (dryRun : Bool) :
    UpdateResults × List Event × Bool :=
  if cfg.enable_pacman && !(h.hasHelper "checkupdates") then
    (⟨false, false, false, 0⟩, [], true)
  else
    let pac : Bool × List Event :=
      if cfg.enable_pacman then
        if dryRun then (false, [Event.printLn "Would update: Pacman"])
        else PacmanManager.update h cfg.noconfirm
      else (false, [])
    let aur : Bool × List Event :=
      if cfg.enable_aur then aurSeqLoop h dryRun cfg.noconfirm else (false, [])
    let fp : Bool × List Event :=
      if cfg.enable_flatpak && h.hasHelper "flatpak" then
        if dryRun then (false, [Event.printLn "Would update: Flatpak"])
        else FlatpakManager.update h
      else (false, [])
    let git : Nat × List Event :=
      if cfg.enable_git_repos then
        if dryRun then
          (0, h.repos.map fun p =>
                Event.printLn ("Would update: " ++ pyCapitalize (h.repoName p)))
        else RepositoryManager.update_all h
      else (0, [])
    (⟨pac.1, aur.1, fp.1, git.1⟩, pac.2 ++ aur.2 ++ fp.2 ++ git.2, false)

/-- Parallel branch of main.py update_system (lines 1017-1053), linearized in
future-submission order; git repositories still run sequentially after the
pool.  The third component marks the PacmanManager constructor raise. -/
def parallelExec (h : Host) (cfg : UserConfig) : UpdateResults × List Event × Bool :=
  let intro := [Event.printLn "Running parallel updates..."]
  if cfg.enable_pacman && !(h.hasHelper "checkupdates") then
    (⟨false, false, false, 0⟩, intro, true)
  else
    let pac : Bool × List Event :=
      if cfg.enable_pacman then PacmanManager.update h cfg.noconfirm else (false, [])
    let yay : Bool × List Event :=
      if cfg.enable_aur && h.hasHelper "yay" then
        AURManager.update h "yay" cfg.noconfirm
      else (false, [])
    let paru : Bool × List Event :=
      if cfg.enable_aur && h.hasHelper "paru" then
        AURManager.update h "paru" cfg.noconfirm
      else (false, [])
    let fp : Bool × List Event :=
      if cfg.enable_flatpak && h.hasHelper "flatpak" then FlatpakManager.update h
      else (false, [])
    let git : Nat × List Event :=
      if cfg.enable_git_repos then RepositoryManager.update_all h else (0, [])
    (⟨pac.1, yay.1 || paru.1, fp.1, git.1⟩,
     intro ++ pac.2 ++ yay.2 ++ paru.2 ++ fp.2 ++ git.2, false)

/-- Branch selection of main.py line 1017: the worker-pool path runs exactly
when parallel_updates is set and the run is not a dry run. -/
def executionPhase (h : Host) (cfg : UserConfig) (dryRun : Bool) :
    UpdateResults × List Event × Bool :=
  if cfg.parallel_updates && !dryRun then parallelExec h cfg
  else seqExec h cfg dryRun

/-- Events before the execution phase: dry-run banner, backup, pre-hooks
(main.py lines 992-1008). -/
def preEvents (cfg : UserConfig) (dryRun : Bool) : List Event :=
  (if dryRun then
     [Event.printLn "=== DRY RUN MODE ===",
      Event.printLn "No actual changes will be made"]
   else [])
  ++ (if cfg.enable_backups && !dryRun then [Event.backupCreate] else [])
  ++ (if !dryRun then [Event.runHooks "pre-update"] else [])

/-- Post-hook events (main.py lines 1091-1092). -/
def postEvents (dryRun : Bool) : List Event :=
  if !dryRun then [Event.runHooks "post-update"] else []

/-- Notification events (main.py lines 1095-1108): a single send when not a
dry run and the computed total is positive. -/
def notifyEvents (dryRun : Bool) (total : Nat) : List Event :=
  if !dryRun && 0 < total then [Event.notifySend] else []

/-- Aggregate result of one run of main.py update_system. -/
structure RunOutput where
  events : List Event
  status : RunStatus
  results : UpdateResults
deriving Repr

/-- main.py update_system (lines 987-1120), without operator interrupts.
A PacmanManager constructor raise falls to the generic exception handler,
which prints an error line and exits 1. -/
def update_system (h : Host) (cfg : UserConfig) (dryRun : Bool) : RunOutput :=
  let ex := executionPhase h cfg dryRun
  if ex.2.2 then
    { events := preEvents cfg dryRun ++ ex.2.1 ++ [Event.printLn "An error occurred"]
      status := RunStatus.errored
      results := ex.1 }
  else
    { events := preEvents cfg dryRun ++ ex.2.1 ++ postEvents dryRun
                  ++ notifyEvents dryRun (totalUpdates ex.1)
                  ++ [Event.printLn "Update completed!"]
      status := RunStatus.completed
      results := ex.1 }

/-- main.py update_system with an operator interrupt: KeyboardInterrupt after
the n-th observable action truncates the run there; the handler prints the
cancelled message and calls sys.exit(0) (lines 1113-1116). -/
def update_system_interruptible (h : Host) (cfg : UserConfig) (dryRun : Bool) :
    Option Nat → List Event × RunStatus
  | none =>
    let out := update_system h cfg dryRun
    (out.events, out.status)
  | some n =>
    let out := update_system h cfg dryRun
    if n < out.events.length then
      (out.events.take n ++ [Event.printLn "Update cancelled by user"],
       RunStatus.cancelled)
    else (out.events, out.status)

end Main

namespace Script

/-- script.py AURManager.has_updates: same structure as main.py, no
statistics collaborator exists in this version. -/
def AURManager.has_updates (h : Host) (helper : String) : Bool × List Event :=
  if h.hasHelper helper then
    if h.aurHasUpdates helper then
      (true, [Event.checkCall (SourceId.helper helper),
              Event.printLn ("Available -> " ++ pyCapitalize helper)])
    else
      (false, [Event.checkCall (SourceId.helper helper),
               Event.printLn ("Already up to date -> " ++ pyCapitalize helper)])
  else (false, [])

/-- script.py AURManager.update (returns None; only the events matter). -/
def AURManager.update (h : Host) (helper : String) : List Event :=
  let c := AURManager.has_updates h helper
  if c.1 then
    if h.aurApplyOk helper then
      c.2 ++ [Event.applyCall (SourceId.helper helper),
              Event.printLn ("Updated -> " ++ pyCapitalize helper)]
    else
      c.2 ++ [Event.applyCall (SourceId.helper helper),
              Event.printLn ("Error updating " ++ helper)]
  else c.2

/-- script.py PacmanManager.has_updates. -/
def PacmanManager.has_updates (h : Host) : Bool × List Event :=
  if h.pacmanHasUpdates then
    (true, [Event.checkCall SourceId.pacman, Event.printLn "Available -> Pacman"])
  else
    (false, [Event.checkCall SourceId.pacman,
             Event.printLn "Already up to date -> Pacman"])

/-- script.py PacmanManager.update. -/
def PacmanManager.update (h : Host) : List Event :=
  let c := PacmanManager.has_updates h
  if c.1 then
    if h.pacmanApplyOk then
      c.2 ++ [Event.applyCall SourceId.pacman, Event.printLn "Updated -> Pacman"]
    else
      c.2 ++ [Event.applyCall SourceId.pacman,
              Event.printLn "Error updating Pacman"]
  else c.2

/-- script.py FlatpakManager.has_updates. -/
def FlatpakManager.has_updates (h : Host) : Bool × List Event :=
  if h.flatpakCheckOk then
    if h.flatpakOutputHasUpdates then
      (true, [Event.checkCall SourceId.flatpak,
              Event.printLn "Available -> Flatpak"])
    else
      (false, [Event.checkCall SourceId.flatpak,
               Event.printLn "Already up to date -> Flatpak"])
  else (false, [Event.checkCall SourceId.flatpak])

/-- script.py FlatpakManager.update. -/
def FlatpakManager.update (h : Host) : List Event :=
  let c := FlatpakManager.has_updates h
  if c.1 then
    if h.flatpakApplyOk then
      c.2 ++ [Event.applyCall SourceId.flatpak, Event.printLn "Updated -> Flatpak"]
    else
      c.2 ++ [Event.applyCall SourceId.flatpak,
              Event.printLn "Error updating Flatpak"]
  else c.2

/-- script.py GitRepository.update (returns None). -/
def GitRepository.update (h : Host) (p : String) : List Event :=
  let c := Main.GitRepository.has_new_commits h p
  let name := pyCapitalize (h.repoName p)
  if c.1 then
    if h.repoPullOk p then
      c.2 ++ [Event.printLn ("Available -> " ++ name),
              Event.applyCall (SourceId.git (h.repoName p)),
              Event.printLn ("Updated -> " ++ name)]
    else
      c.2 ++ [Event.printLn ("Available -> " ++ name),
              Event.applyCall (SourceId.git (h.repoName p)),
              Event.printLn ("Error updating " ++ name)]
  else c.2 ++ [Event.printLn ("Already up to date -> " ++ name)]

/-- Loop body of script.py RepositoryManager.update_all. -/
def RepositoryManager.update_all_go (h : Host) : List String → List Event
  | [] => []
  | p :: rest =>
    let here : List Event :=
      if h.pathExists p then
        if Main.GitRepository.isValid h p then GitRepository.update h p
        else [Event.printLn ("Skipping (invalid): " ++ p)]
      else [Event.printLn ("Skipping (not found): " ++ p)]
    here ++ RepositoryManager.update_all_go h rest

/-- script.py RepositoryManager.update_all (no count, no statistics). -/
def RepositoryManager.update_all (h : Host) : List Event :=
  if h.repos.isEmpty then []
  else Event.printLn "=== Updating Git Repositories ===" :: RepositoryManager.update_all_go h h.repos

/-- script.py update_system (lines 519-554): AUR helpers first (yay then
paru), then Pacman, then Flatpak, then the tracked git repositories.  The
PacmanManager constructor raise (checkupdates missing) falls to the generic
handler and exits 1. -/
def update_system (h : Host) : List Event × RunStatus :=
  if !(h.hasHelper "checkupdates") then
    ([Event.printLn "An error occurred"], RunStatus.errored)
  else
    let evA :=
      (if h.hasHelper "yay" then AURManager.update h "yay" else [])
        ++ (if h.hasHelper "paru" then AURManager.update h "paru" else [])
    let evP := PacmanManager.update h
    let evF := if h.hasHelper "flatpak" then FlatpakManager.update h else []
    let evG := RepositoryManager.update_all h
    (evA ++ evP ++ evF ++ evG, RunStatus.completed)

end Script

/-- Order in which adapters executed their checks, extracted from a trace. -/
def executedSources (l : List Event) : List SourceId :=
  l.filterMap fun e =>
    match e with
    | .checkCall s => some s
    | _ => none

/-- Configuration with every source enabled, sequential mode. -/
def cfgAll : UserConfig :=
  { enable_pacman := true, enable_aur := true, enable_flatpak := true
    enable_git_repos := true, enable_notifications := true, enable_backups := true
    parallel_updates := false, noconfirm := false }

/-- Host where every program is on PATH, every source has pending updates and
every external command succeeds; no tracked repositories. -/
def hostAll : Host :=
  { hasHelper := fun _ => true
    pacmanHasUpdates := true, pacmanApplyOk := true
    aurHasUpdates := fun _ => true, aurApplyOk := fun _ => true
    flatpakCheckOk := true, flatpakOutputHasUpdates := true, flatpakApplyOk := true
    repos := []
    pathExists := fun _ => true, isGitRepo := fun _ => true
    normalizeRepo := fun p => p, repoName := fun p => p
    repoHasNewCommits := fun _ => true, repoPullOk := fun _ => true }

/-- Host identical to hostAll except that checkupdates (pacman-contrib) is
not on PATH. -/
def hostNoCheckupdates : Host :=
  { hostAll with hasHelper := fun s => !(s == "checkupdates") }

/-- Host where only yay has pending AUR updates; paru reports none. -/
def hostYayOnly : Host :=
  { hostAll with aurHasUpdates := fun s => s == "yay" }

/-- Host identical to hostAll except that yay is not on PATH. -/
def hostNoYay : Host :=
  { hostAll with hasHelper := fun s => !(s == "yay") }

/-- Host with no pending updates anywhere. -/
def hostNoPending : Host :=
  { hostAll with
      pacmanHasUpdates := false
      aurHasUpdates := fun _ => false
      flatpakOutputHasUpdates := false
      repoHasNewCommits := fun _ => false }

/-- Host where every check reports pending updates but every external update
command fails with a non-zero exit. -/
def hostApplyFails : Host :=
  { hostAll with
      pacmanApplyOk := false
      aurApplyOk := fun _ => false
      flatpakApplyOk := false
      repoPullOk := fun _ => false }

/-- Check order contributed by the git-repository batch: one check per
tracked path that exists and is a valid checkout, in list order. -/
def gitCheckOrder (h : Host) : List SourceId :=
  (h.repos.filter fun p => h.pathExists p && Main.GitRepository.isValid h p).map
    fun p => SourceId.git (h.repoName p)

/-- A list all of whose events satisfy p has countP q zero whenever p rules
out q. -/
theorem countP_eq_zero_of_all {p q : Event → Bool} {l : List Event}
    (hl : l.all p = true) (hpq : ∀ e, p e = true → q e = false) :
    l.countP q = 0 := by
  rw [List.countP_eq_zero]
  intro a ha
  simp [hpq a (List.all_eq_true.mp hl a ha)]

/-- An event failing p is not a member of a list all of whose events satisfy
p. -/
theorem not_mem_of_all {p : Event → Bool} {l : List Event}
    (hl : l.all p = true) {e : Event} (he : p e = false) : e ∉ l := by
  intro hm
  have := List.all_eq_true.mp hl e hm
  rw [he] at this
  exact Bool.false_ne_true this

theorem aur_has_updates_source (h : Host) (x : String) :
    (Main.AURManager.has_updates h x).2.all Event.isSourceEvent = true := by
  unfold Main.AURManager.has_updates
  cases hh : h.hasHelper x <;> cases hu : h.aurHasUpdates x <;>
    simp [hh, hu, Event.isSourceEvent]

theorem aur_update_source (h : Host) (x : String) (nc : Bool) :
    (Main.AURManager.update h x nc).2.all Event.isSourceEvent = true := by
  unfold Main.AURManager.update
  cases hu : (Main.AURManager.has_updates h x).1 <;>
    cases ha : h.aurApplyOk x <;>
      simp [hu, ha, List.all_append, aur_has_updates_source, Event.isSourceEvent]

theorem pacman_has_updates_source (h : Host) :
    (Main.PacmanManager.has_updates h).2.all Event.isSourceEvent = true := by
  unfold Main.PacmanManager.has_updates
  cases hu : h.pacmanHasUpdates <;> simp [hu, Event.isSourceEvent]

theorem pacman_update_source (h : Host) (nc : Bool) :
    (Main.PacmanManager.update h nc).2.all Event.isSourceEvent = true := by
  unfold Main.PacmanManager.update
  cases hu : (Main.PacmanManager.has_updates h).1 <;>
    cases ha : h.pacmanApplyOk <;>
      simp [hu, ha, List.all_append, pacman_has_updates_source, Event.isSourceEvent]

theorem flatpak_has_updates_source (h : Host) :
    (Main.FlatpakManager.has_updates h).2.all Event.isSourceEvent = true := by
  unfold Main.FlatpakManager.has_updates
  cases hc : h.flatpakCheckOk <;> cases hu : h.flatpakOutputHasUpdates <;>
    simp [hc, hu, Event.isSourceEvent]

theorem flatpak_update_source (h : Host) :
    (Main.FlatpakManager.update h).2.all Event.isSourceEvent = true := by
  unfold Main.FlatpakManager.update
  cases hu : (Main.FlatpakManager.has_updates h).1 <;>
    cases ha : h.flatpakApplyOk <;>
      simp [hu, ha, List.all_append, flatpak_has_updates_source, Event.isSourceEvent]

theorem git_update_source (h : Host) (p : String) :
    (Main.GitRepository.update h p).2.all Event.isSourceEvent = true := by
  unfold Main.GitRepository.update Main.GitRepository.has_new_commits
  cases hu : h.repoHasNewCommits p <;> cases hp : h.repoPullOk p <;>
    simp [hu, hp, List.all_append, Event.isSourceEvent]

theorem update_all_go_source (h : Host) (l : List String) :
    (Main.RepositoryManager.update_all_go h l).2.all Event.isSourceEvent = true := by
  induction l with
  | nil => rfl
  | cons p rest ih =>
    unfold Main.RepositoryManager.update_all_go
    cases hpe : h.pathExists p <;> cases hv : Main.GitRepository.isValid h p <;>
      cases hu : (Main.GitRepository.update h p).1 <;>
        simp [hpe, hv, hu, List.all_append, ih, git_update_source, Event.isSourceEvent]

theorem update_all_source (h : Host) :
    (Main.RepositoryManager.update_all h).2.all Event.isSourceEvent = true := by
  unfold Main.RepositoryManager.update_all
  cases he : h.repos.isEmpty <;>
    simp [he, update_all_go_source, Event.isSourceEvent]

theorem aurSeqLoop_source (h : Host) (dr nc : Bool) :
    (Main.aurSeqLoop h dr nc).2.all Event.isSourceEvent = true := by
  unfold Main.aurSeqLoop
  simp only [List.foldl]
  cases hy : h.hasHelper "yay" <;> cases hp : h.hasHelper "paru" <;> cases dr <;>
    simp [hy, hp, List.all_append, aur_update_source, Event.isSourceEvent]

theorem seqExec_source (h : Host) (cfg : UserConfig) (dr : Bool) :
    (Main.seqExec h cfg dr).2.1.all Event.isSourceEvent = true := by
  unfold Main.seqExec
  cases hr : (cfg.enable_pacman && !(h.hasHelper "checkupdates")) <;>
    [skip; simp [hr]]
  cases hcp : cfg.enable_pacman <;> cases dr <;>
    cases ha : cfg.enable_aur <;>
      cases hfl : (cfg.enable_flatpak && h.hasHelper "flatpak") <;>
        cases hg : cfg.enable_git_repos <;>
          simp [hr, hcp, ha, hfl, hg, List.all_append, List.all_map,
            Function.comp, pacman_update_source, aurSeqLoop_source,
            flatpak_update_source, update_all_source, Event.isSourceEvent]

theorem parallelExec_source (h : Host) (cfg : UserConfig) :
    (Main.parallelExec h cfg).2.1.all Event.isSourceEvent = true := by
  unfold Main.parallelExec
  cases hr : (cfg.enable_pacman && !(h.hasHelper "checkupdates")) <;>
    [skip; simp [hr, Event.isSourceEvent]]
  cases hcp : cfg.enable_pacman <;>
    cases hy : (cfg.enable_aur && h.hasHelper "yay") <;>
      cases hp : (cfg.enable_aur && h.hasHelper "paru") <;>
        cases hfl : (cfg.enable_flatpak && h.hasHelper "flatpak") <;>
          cases hg : cfg.enable_git_repos <;>
            simp [hr, hcp, hy, hp, hfl, hg, List.all_append,
              pacman_update_source, aur_update_source,
              flatpak_update_source, update_all_source, Event.isSourceEvent]

theorem executionPhase_source (h : Host) (cfg : UserConfig) (dr : Bool) :
    (Main.executionPhase h cfg dr).2.1.all Event.isSourceEvent = true := by
  unfold Main.executionPhase
  cases hb : (cfg.parallel_updates && !dr) <;>
    simp [hb, seqExec_source, parallelExec_source]

/-- When the execution phase raised, the result dictionary is untouched. -/
theorem executionPhase_raised_results (h : Host) (cfg : UserConfig) (dr : Bool)
    (hr : (Main.executionPhase h cfg dr).2.2 = true) :
    (Main.executionPhase h cfg dr).1 = ⟨false, false, false, 0⟩ := by
  unfold Main.executionPhase Main.parallelExec Main.seqExec at hr ⊢
  cases hb : (cfg.parallel_updates && !dr) <;>
    cases hc : (cfg.enable_pacman && !(h.hasHelper "checkupdates")) <;>
      simp [hb, hc] at hr ⊢

theorem aurSeqLoop_dry_print (h : Host) (nc : Bool) :
    (Main.aurSeqLoop h true nc).2.all Event.isPrint = true := by
  unfold Main.aurSeqLoop
  simp only [List.foldl]
  cases hy : h.hasHelper "yay" <;> cases hp : h.hasHelper "paru" <;>
    simp [hy, hp, List.all_append, Event.isPrint]

theorem seqExec_dry_print (h : Host) (cfg : UserConfig) :
    (Main.seqExec h cfg true).2.1.all Event.isPrint = true := by
  unfold Main.seqExec
  cases hr : (cfg.enable_pacman && !(h.hasHelper "checkupdates")) <;>
    [skip; simp [hr]]
  cases hcp : cfg.enable_pacman <;>
    cases ha : cfg.enable_aur <;>
      cases hfl : (cfg.enable_flatpak && h.hasHelper "flatpak") <;>
        cases hg : cfg.enable_git_repos <;>
          simp [hr, hcp, ha, hfl, hg, List.all_append, List.all_map,
            Function.comp, aurSeqLoop_dry_print, Event.isPrint]

theorem update_system_dry_print (h : Host) (cfg : UserConfig) :
    (Main.update_system h cfg true).events.all Event.isPrint = true := by
  unfold Main.update_system Main.executionPhase Main.preEvents Main.postEvents
    Main.notifyEvents
  cases hr : (Main.seqExec h cfg true).2.2 <;>
    simp [hr, List.all_append, seqExec_dry_print, Event.isPrint]

theorem preEvents_countP (cfg : UserConfig) (dr : Bool) {q : Event → Bool}
    (hp : ∀ s, q (Event.printLn s) = false) (hb : q Event.backupCreate = false)
    (hh : ∀ s, q (Event.runHooks s) = false) :
    (Main.preEvents cfg dr).countP q = 0 := by
  unfold Main.preEvents
  cases dr <;> cases hbe : cfg.enable_backups <;>
    simp [hbe, List.countP_append, List.countP_cons, hp, hb, hh]

theorem executionPhase_countP_notify (h : Host) (cfg : UserConfig) (dr : Bool) :
    (Main.executionPhase h cfg dr).2.1.countP Event.isNotify = 0 :=
  countP_eq_zero_of_all (executionPhase_source h cfg dr)
    (by intro e he; cases e <;> simp_all [Event.isSourceEvent, Event.isNotify])

/-- C6: in a non-dry run, totalUpdated is the count of single-target sources
with updated true plus the git-repository item count, and the notification
collaborator's send is invoked exactly once when that total is positive and
never when it is zero. -/
theorem C6_notification_iff_updates (h : Host) (cfg : UserConfig) :
    (Main.update_system h cfg false).events.countP Event.isNotify
      = (if 0 < totalUpdates (Main.update_system h cfg false).results then 1 else 0)
    ∧ totalUpdates (Main.update_system h cfg false).results
      = (if (Main.update_system h cfg false).results.pacman then 1 else 0)
        + (if (Main.update_system h cfg false).results.aur then 1 else 0)
        + (if (Main.update_system h cfg false).results.flatpak then 1 else 0)
        + (Main.update_system h cfg false).results.git_repos := by
  refine ⟨?_, rfl⟩
  unfold Main.update_system
  cases hr : (Main.executionPhase h cfg false).2.2
  · by_cases ht : 0 < totalUpdates (Main.executionPhase h cfg false).1 <;>
      simp [hr, ht, Main.postEvents, Main.notifyEvents, List.countP_append,
        List.countP_cons, Event.isNotify, preEvents_countP,
        executionPhase_countP_notify]
  · have hres := executionPhase_raised_results h cfg false hr
    simp [hr, hres, totalUpdates, List.countP_append, List.countP_cons,
      Event.isNotify, preEvents_countP, executionPhase_countP_notify]

/-- C8: the concurrent worker-pool branch is entered only when
parallel_updates is set and the run is not a dry run; in particular every dry
run takes the sequential path. -/
theorem C8_dry_run_forces_sequential (h : Host) (cfg : UserConfig) (dr : Bool)
    (hseq : cfg.parallel_updates = false ∨ dr = true) :
    Main.executionPhase h cfg dr = Main.seqExec h cfg dr := by
  unfold Main.executionPhase
  rcases hseq with hp | hd
  · simp [hp]
  · subst hd; simp

/-- Witness for C8 at a concrete dry run. -/
theorem C8_dry_run_forces_sequential_witness :
    Main.executionPhase hostAll cfgAll true = Main.seqExec hostAll cfgAll true :=
  C8_dry_run_forces_sequential hostAll cfgAll true (Or.inr rfl)

theorem pacman_update_val (h : Host) (nc : Bool) :
    (Main.PacmanManager.update h nc).1 = (h.pacmanHasUpdates && h.pacmanApplyOk) := by
  unfold Main.PacmanManager.update Main.PacmanManager.has_updates
  cases hu : h.pacmanHasUpdates <;> cases ha : h.pacmanApplyOk <;> simp [hu, ha]

theorem aur_update_val (h : Host) (x : String) (nc : Bool) :
    (Main.AURManager.update h x nc).1
      = (h.hasHelper x && (h.aurHasUpdates x && h.aurApplyOk x)) := by
  unfold Main.AURManager.update Main.AURManager.has_updates
  cases hh : h.hasHelper x <;> cases hu : h.aurHasUpdates x <;>
    cases ha : h.aurApplyOk x <;> simp [hh, hu, ha]

theorem flatpak_update_val (h : Host) :
    (Main.FlatpakManager.update h).1
      = (h.flatpakCheckOk && (h.flatpakOutputHasUpdates && h.flatpakApplyOk)) := by
  unfold Main.FlatpakManager.update Main.FlatpakManager.has_updates
  cases hc : h.flatpakCheckOk <;> cases hu : h.flatpakOutputHasUpdates <;>
    cases ha : h.flatpakApplyOk <;> simp [hc, hu, ha]

/-- C9: each single-target manager's update returns the conjunction of its
check result and its apply result, so it returns False both on
no-pending-updates and on a failed update command, and the Bool exposed to
the orchestrator cannot distinguish the two outcomes (demonstrated on a
no-pending host and an apply-failing host). -/
theorem C9_update_false_conflates_outcomes :
    (∀ (h : Host) (nc : Bool),
        (Main.PacmanManager.update h nc).1 = (h.pacmanHasUpdates && h.pacmanApplyOk))
    ∧ (∀ (h : Host) (x : String) (nc : Bool),
        (Main.AURManager.update h x nc).1
          = (h.hasHelper x && (h.aurHasUpdates x && h.aurApplyOk x)))
    ∧ (∀ h : Host,
        (Main.FlatpakManager.update h).1
          = (h.flatpakCheckOk && (h.flatpakOutputHasUpdates && h.flatpakApplyOk)))
    ∧ (Main.PacmanManager.update hostNoPending false).1 = false
    ∧ (Main.PacmanManager.update hostApplyFails false).1 = false
    ∧ (Main.AURManager.update hostNoPending "yay" false).1 = false
    ∧ (Main.AURManager.update hostApplyFails "yay" false).1 = false
    ∧ (Main.FlatpakManager.update hostNoPending).1 = false
    ∧ (Main.FlatpakManager.update hostApplyFails).1 = false := by
  refine ⟨pacman_update_val, aur_update_val, flatpak_update_val, ?_, ?_, ?_, ?_, ?_, ?_⟩
    <;> decide

/-- C10: add_repo keeps the tracked list free of duplicate normalized paths:
an invalid path or an already-tracked path leaves the list unchanged, and a
valid new path is appended, normalized, exactly once at the end. -/
theorem C10_add_repo_nodup (h : Host) (repos : List String) (p : String)
    (hnd : repos.Nodup) :
    (Main.RepositoryManager.add_repo h repos p).Nodup
    ∧ (h.normalizeRepo p ∈ repos → Main.RepositoryManager.add_repo h repos p = repos)
    ∧ (h.pathExists (h.normalizeRepo p) = true →
        h.isGitRepo (h.normalizeRepo p) = true →
        h.normalizeRepo p ∉ repos →
        Main.RepositoryManager.add_repo h repos p = repos ++ [h.normalizeRepo p]
        ∧ (Main.RepositoryManager.add_repo h repos p).count (h.normalizeRepo p) = 1) := by
  unfold Main.RepositoryManager.add_repo
  cases hv : (h.pathExists (h.normalizeRepo p) && h.isGitRepo (h.normalizeRepo p))
  · rw [if_neg (by simp [hv])]
    refine ⟨hnd, fun _ => rfl, fun h1 h2 _ => ?_⟩
    rw [h1, h2] at hv
    simp at hv
  · rw [if_pos hv]
    by_cases hmem : h.normalizeRepo p ∈ repos
    · rw [if_pos hmem]
      exact ⟨hnd, fun _ => rfl, fun _ _ hno => absurd hmem hno⟩
    · rw [if_neg hmem]
      refine ⟨?_, fun hc => absurd hc hmem, fun _ _ _ => ⟨rfl, ?_⟩⟩
      · rw [List.nodup_append]
        refine ⟨hnd, List.nodup_singleton _, ?_⟩
        intro a ha hb
        rw [List.mem_singleton] at hb
        exact hmem (hb ▸ ha)
      · rw [List.count_append]
        simp [List.count_eq_zero_of_not_mem hmem]

/-- C1 counterexample: in a concrete dry run on a host where every source is
enabled, available and has pending updates, no adapter check is ever invoked
(zero checkCall events), yet a "Would update" entry is still reported — so
the preview is not derived from check(), contradicting the claim that
check() is still called. -/
theorem C1_counterexample :
    (Main.update_system hostAll cfgAll true).events.countP Event.isCheck = 0
    ∧ Event.printLn "Would update: Pacman"
        ∈ (Main.update_system hostAll cfgAll true).events
    ∧ hostAll.pacmanHasUpdates = true
    ∧ cfgAll.enable_pacman = true
    ∧ hostAll.hasHelper "checkupdates" = true := by
  decide

/-- C1 amended: in every dry run no adapter apply is invoked, no backup,
hook, statistics or notification collaborator is invoked, and no adapter
check is invoked either; each enabled and available source is reported with
an unconditional "Would update" line that does not reflect pending-update
status. -/
theorem C1_amended_dry_run (h : Host) (cfg : UserConfig) :
    (Main.update_system h cfg true).events.countP Event.isApply = 0
    ∧ (Main.update_system h cfg true).events.countP Event.isCheck = 0
    ∧ (Main.update_system h cfg true).events.countP Event.isRecord = 0
    ∧ (Main.update_system h cfg true).events.countP Event.isHook = 0
    ∧ (Main.update_system h cfg true).events.countP Event.isBackup = 0
    ∧ (Main.update_system h cfg true).events.countP Event.isNotify = 0
    ∧ (cfg.enable_pacman = true → h.hasHelper "checkupdates" = true →
        Event.printLn "Would update: Pacman"
          ∈ (Main.update_system h cfg true).events)
    ∧ (h.hasHelper "checkupdates" = true → cfg.enable_aur = true →
        h.hasHelper "yay" = true →
        Event.printLn "Would update: Yay"
          ∈ (Main.update_system h cfg true).events)
    ∧ (h.hasHelper "checkupdates" = true → cfg.enable_flatpak = true →
        h.hasHelper "flatpak" = true →
        Event.printLn "Would update: Flatpak"
          ∈ (Main.update_system h cfg true).events) := by
  have hall := update_system_dry_print h cfg
  refine ⟨countP_eq_zero_of_all hall ?_, countP_eq_zero_of_all hall ?_,
    countP_eq_zero_of_all hall ?_, countP_eq_zero_of_all hall ?_,
    countP_eq_zero_of_all hall ?_, countP_eq_zero_of_all hall ?_, ?_, ?_, ?_⟩
  · intro e he; cases e <;> simp_all [Event.isPrint, Event.isApply]
  · intro e he; cases e <;> simp_all [Event.isPrint, Event.isCheck]
  · intro e he; cases e <;> simp_all [Event.isPrint, Event.isRecord]
  · intro e he; cases e <;> simp_all [Event.isPrint, Event.isHook]
  · intro e he; cases e <;> simp_all [Event.isPrint, Event.isBackup]
  · intro e he; cases e <;> simp_all [Event.isPrint, Event.isNotify]
  · intro hcp hcu
    unfold Main.update_system Main.executionPhase Main.seqExec
    cases hr : (Main.seqExec h cfg true).2.2 <;>
      simp [hcp, hcu, List.mem_append]
  · intro hcu ha hy
    unfold Main.update_system Main.executionPhase Main.seqExec Main.aurSeqLoop
    cases hp : h.hasHelper "paru" <;>
      simp [hcu, ha, hy, hp, List.foldl, List.mem_append, pyCapitalize]
  · intro hcu hf hfp
    unfold Main.update_system Main.executionPhase Main.seqExec
    simp [hcu, hf, hfp, List.mem_append]

/-- Witness for C1 amended at a fully-enabled, fully-available host. -/
theorem C1_amended_dry_run_witness :
    (Main.update_system hostAll cfgAll true).events.countP Event.isApply = 0
    ∧ (Main.update_system hostAll cfgAll true).events.countP Event.isNotify = 0
    ∧ Event.printLn "Would update: Yay"
        ∈ (Main.update_system hostAll cfgAll true).events := by
  have hthm := C1_amended_dry_run hostAll cfgAll
  exact ⟨hthm.1, hthm.2.2.2.2.2.1, hthm.2.2.2.2.2.2.2.1 rfl rfl rfl⟩

/-- C3 counterexample: an operator interrupt delivered during the backup
phase of a concrete run yields the cancelled terminal state, but the process
exit status is 0, not the non-zero status the claim asserts. -/
theorem C3_counterexample :
    (Main.update_system_interruptible hostAll cfgAll false (some 1)).2
        = RunStatus.cancelled
    ∧ (Main.update_system_interruptible hostAll cfgAll false (some 1)).2.exitCode
        = 0 := by
  decide

/-- C3 amended: an operator interrupt delivered at any point of a run yields
the cancelled terminal state with the distinct "Update cancelled by user"
message, the notification collaborator is not invoked provided the interrupt
arrives before the notification send, and the process exits with status 0
(sys.exit(0)), not a non-zero status. -/
theorem C3_amended_cancellation (h : Host) (cfg : UserConfig) (dr : Bool)
    (n : Nat) (hn : n < (Main.update_system h cfg dr).events.length) :
    (Main.update_system_interruptible h cfg dr (some n)).2 = RunStatus.cancelled
    ∧ (Main.update_system_interruptible h cfg dr (some n)).2.exitCode = 0
    ∧ Event.printLn "Update cancelled by user"
        ∈ (Main.update_system_interruptible h cfg dr (some n)).1
    ∧ (Event.notifySend ∉ (Main.update_system h cfg dr).events.take n →
        Event.notifySend ∉ (Main.update_system_interruptible h cfg dr (some n)).1) := by
  simp only [Main.update_system_interruptible]
  rw [if_pos hn]
  refine ⟨rfl, rfl, ?_, ?_⟩
  · exact List.mem_append_right _ (List.mem_singleton_self _)
  · intro hno hmem
    rcases List.mem_append.mp hmem with hmem | hmem
    · exact hno hmem
    · rw [List.mem_singleton] at hmem
      cases hmem

/-- Witness for C3 amended: concrete interrupted run has cancelled status,
exit code 0 and no notification. -/
theorem C3_amended_cancellation_witness :
    (Main.update_system_interruptible hostAll cfgAll false (some 2)).2
        = RunStatus.cancelled
    ∧ (Main.update_system_interruptible hostAll cfgAll false (some 2)).2.exitCode = 0
    ∧ Event.notifySend
        ∉ (Main.update_system_interruptible hostAll cfgAll false (some 2)).1 := by
  have hthm := C3_amended_cancellation hostAll cfgAll false 2 (by decide)
  exact ⟨hthm.1, hthm.2.1, hthm.2.2.2 (by decide)⟩

theorem update_system_results (h : Host) (cfg : UserConfig) (dr : Bool) :
    (Main.update_system h cfg dr).results = (Main.executionPhase h cfg dr).1 := by
  unfold Main.update_system
  cases hr : (Main.executionPhase h cfg dr).2.2 <;> simp [hr]

theorem executionPhase_aur (h : Host) (cfg : UserConfig)
    (ha : cfg.enable_aur = true) (hy : h.hasHelper "yay" = true)
    (hp : h.hasHelper "paru" = true)
    (hnr : (cfg.enable_pacman && !(h.hasHelper "checkupdates")) = false) :
    (Main.executionPhase h cfg false).1.aur
      = ((Main.AURManager.update h "yay" cfg.noconfirm).1
          || (Main.AURManager.update h "paru" cfg.noconfirm).1) := by
  unfold Main.executionPhase Main.parallelExec Main.seqExec Main.aurSeqLoop
  cases hb : cfg.parallel_updates <;>
    simp [hb, hnr, ha, hy, hp, List.foldl, Bool.or_comm]

/-- C5: when both helper adapters run and exactly one reports updated, the
merged helper-packages flag is their logical OR (hence true) and the
helper-packages source contributes exactly 1 to the total. -/
theorem C5_helper_or_merge (h : Host) (cfg : UserConfig)
    (ha : cfg.enable_aur = true)
    (hy : h.hasHelper "yay" = true) (hp : h.hasHelper "paru" = true)
    (hcu : cfg.enable_pacman = true → h.hasHelper "checkupdates" = true)
    (hone : (Main.AURManager.update h "yay" cfg.noconfirm).1
              ≠ (Main.AURManager.update h "paru" cfg.noconfirm).1) :
    (Main.update_system h cfg false).results.aur = true
    ∧ (if (Main.update_system h cfg false).results.aur then 1 else 0) = 1 := by
  have hnr : (cfg.enable_pacman && !(h.hasHelper "checkupdates")) = false := by
    cases hcp : cfg.enable_pacman
    · simp
    · simp [hcu hcp]
  have haur := executionPhase_aur h cfg ha hy hp hnr
  rw [update_system_results]
  rw [haur]
  cases h1 : (Main.AURManager.update h "yay" cfg.noconfirm).1 <;>
    cases h2 : (Main.AURManager.update h "paru" cfg.noconfirm).1 <;>
      simp_all

/-- Witness for C5: yay updates and paru does not; the merged flag is true
and contributes exactly 1. -/
theorem C5_helper_or_merge_witness :
    (Main.update_system hostYayOnly cfgAll false).results.aur = true
    ∧ (if (Main.update_system hostYayOnly cfgAll false).results.aur
       then 1 else 0) = 1 :=
  C5_helper_or_merge hostYayOnly cfgAll rfl rfl rfl (fun _ => rfl) (by decide)

@[simp] theorem executedSources_nil : executedSources [] = [] := rfl

@[simp] theorem executedSources_cons_print (m : String) (l : List Event) :
    executedSources (Event.printLn m :: l) = executedSources l := rfl

@[simp] theorem executedSources_cons_check (s : SourceId) (l : List Event) :
    executedSources (Event.checkCall s :: l) = s :: executedSources l := rfl

@[simp] theorem executedSources_cons_apply (s : SourceId) (l : List Event) :
    executedSources (Event.applyCall s :: l) = executedSources l := rfl

@[simp] theorem executedSources_cons_record (s : SourceId) (l : List Event) :
    executedSources (Event.recordUpdate s :: l) = executedSources l := rfl

@[simp] theorem executedSources_cons_backup (l : List Event) :
    executedSources (Event.backupCreate :: l) = executedSources l := rfl

@[simp] theorem executedSources_cons_hooks (ph : String) (l : List Event) :
    executedSources (Event.runHooks ph :: l) = executedSources l := rfl

@[simp] theorem executedSources_cons_notify (l : List Event) :
    executedSources (Event.notifySend :: l) = executedSources l := rfl

@[simp] theorem executedSources_append (l₁ l₂ : List Event) :
    executedSources (l₁ ++ l₂) = executedSources l₁ ++ executedSources l₂ := by
  simp [executedSources]

theorem executedSources_map_print (f : String → String) (l : List String) :
    executedSources (l.map fun p => Event.printLn (f p)) = [] := by
  induction l with
  | nil => rfl
  | cons p rest ih => simp [ih]

theorem executedSources_pacman_update (h : Host) (nc : Bool) :
    executedSources (Main.PacmanManager.update h nc).2 = [SourceId.pacman] := by
  unfold Main.PacmanManager.update Main.PacmanManager.has_updates
  cases hu : h.pacmanHasUpdates <;> cases ha : h.pacmanApplyOk <;> simp [hu, ha]

theorem executedSources_aur_update (h : Host) (x : String) (nc : Bool) :
    executedSources (Main.AURManager.update h x nc).2
      = if h.hasHelper x then [SourceId.helper x] else [] := by
  unfold Main.AURManager.update Main.AURManager.has_updates
  cases hh : h.hasHelper x <;> cases hu : h.aurHasUpdates x <;>
    cases ha : h.aurApplyOk x <;> simp [hh, hu, ha]

theorem executedSources_flatpak_update (h : Host) :
    executedSources (Main.FlatpakManager.update h).2 = [SourceId.flatpak] := by
  unfold Main.FlatpakManager.update Main.FlatpakManager.has_updates
  cases hc : h.flatpakCheckOk <;> cases hu : h.flatpakOutputHasUpdates <;>
    cases ha : h.flatpakApplyOk <;> simp [hc, hu, ha]

theorem executedSources_git_update (h : Host) (p : String) :
    executedSources (Main.GitRepository.update h p).2
      = [SourceId.git (h.repoName p)] := by
  unfold Main.GitRepository.update Main.GitRepository.has_new_commits
  cases hu : h.repoHasNewCommits p <;> cases hk : h.repoPullOk p <;> simp [hu, hk]

theorem executedSources_update_all_go (h : Host) (l : List String) :
    executedSources (Main.RepositoryManager.update_all_go h l).2
      = (l.filter fun p => h.pathExists p && Main.GitRepository.isValid h p).map
          (fun p => SourceId.git (h.repoName p)) := by
  induction l with
  | nil => rfl
  | cons p rest ih =>
    unfold Main.RepositoryManager.update_all_go
    cases hpe : h.pathExists p <;> cases hv : Main.GitRepository.isValid h p <;>
      cases hu : (Main.GitRepository.update h p).1 <;>
        simp [hpe, hv, hu, ih, executedSources_git_update, List.filter_cons]

theorem executedSources_update_all (h : Host) :
    executedSources (Main.RepositoryManager.update_all h).2 = gitCheckOrder h := by
  unfold Main.RepositoryManager.update_all gitCheckOrder
  cases he : h.repos.isEmpty
  · simp [he, executedSources_update_all_go]
  · have hnil : h.repos = [] := by
      cases hrepos : h.repos
      · rfl
      · rw [hrepos] at he; simp at he
    simp [he, hnil]

theorem executedSources_aurSeqLoop (h : Host) (nc : Bool)
    (hy : h.hasHelper "yay" = true) (hp : h.hasHelper "paru" = true) :
    executedSources (Main.aurSeqLoop h false nc).2
      = [SourceId.helper "yay", SourceId.helper "paru"] := by
  unfold Main.aurSeqLoop
  simp [List.foldl, hy, hp, executedSources_aur_update]

theorem executedSources_preEvents (cfg : UserConfig) (dr : Bool) :
    executedSources (Main.preEvents cfg dr) = [] := by
  unfold Main.preEvents
  cases dr <;> cases hb : cfg.enable_backups <;> simp [hb]

theorem executedSources_postEvents (dr : Bool) :
    executedSources (Main.postEvents dr) = [] := by
  unfold Main.postEvents
  cases dr <;> simp

theorem executedSources_notifyEvents (dr : Bool) (t : Nat) :
    executedSources (Main.notifyEvents dr t) = [] := by
  unfold Main.notifyEvents
  by_cases hc : (!dr && decide (0 < t)) = true <;> simp [hc]

theorem executedSources_script_aur_update (h : Host) (x : String) :
    executedSources (Script.AURManager.update h x)
      = if h.hasHelper x then [SourceId.helper x] else [] := by
  unfold Script.AURManager.update Script.AURManager.has_updates
  cases hh : h.hasHelper x <;> cases hu : h.aurHasUpdates x <;>
    cases ha : h.aurApplyOk x <;> simp [hh, hu, ha]

theorem executedSources_script_pacman_update (h : Host) :
    executedSources (Script.PacmanManager.update h) = [SourceId.pacman] := by
  unfold Script.PacmanManager.update Script.PacmanManager.has_updates
  cases hu : h.pacmanHasUpdates <;> cases ha : h.pacmanApplyOk <;> simp [hu, ha]

theorem executedSources_script_flatpak_update (h : Host) :
    executedSources (Script.FlatpakManager.update h) = [SourceId.flatpak] := by
  unfold Script.FlatpakManager.update Script.FlatpakManager.has_updates
  cases hc : h.flatpakCheckOk <;> cases hu : h.flatpakOutputHasUpdates <;>
    cases ha : h.flatpakApplyOk <;> simp [hc, hu, ha]

theorem executedSources_script_git_update (h : Host) (p : String) :
    executedSources (Script.GitRepository.update h p)
      = [SourceId.git (h.repoName p)] := by
  unfold Script.GitRepository.update Main.GitRepository.has_new_commits
  cases hu : h.repoHasNewCommits p <;> cases hk : h.repoPullOk p <;> simp [hu, hk]

theorem executedSources_script_update_all_go (h : Host) (l : List String) :
    executedSources (Script.RepositoryManager.update_all_go h l)
      = (l.filter fun p => h.pathExists p && Main.GitRepository.isValid h p).map
          (fun p => SourceId.git (h.repoName p)) := by
  induction l with
  | nil => rfl
  | cons p rest ih =>
    unfold Script.RepositoryManager.update_all_go
    cases hpe : h.pathExists p <;> cases hv : Main.GitRepository.isValid h p <;>
      simp [hpe, hv, ih, executedSources_script_git_update, List.filter_cons]

theorem executedSources_script_update_all (h : Host) :
    executedSources (Script.RepositoryManager.update_all h) = gitCheckOrder h := by
  unfold Script.RepositoryManager.update_all gitCheckOrder
  cases he : h.repos.isEmpty
  · simp [he, executedSources_script_update_all_go]
  · have hnil : h.repos = [] := by
      cases hrepos : h.repos
      · rfl
      · rw [hrepos] at he; simp at he
    simp [he, hnil]

/-- C7 counterexample: a concrete sequential run of script.py's
update_system executes the helper adapters first, then system packages; its
execution order is not the claimed system-packages-first order. -/
theorem C7_counterexample :
    executedSources (Script.update_system hostAll).1
        = [SourceId.helper "yay", SourceId.helper "paru", SourceId.pacman,
           SourceId.flatpak]
    ∧ executedSources (Script.update_system hostAll).1
        ≠ [SourceId.pacman, SourceId.helper "yay", SourceId.helper "paru",
           SourceId.flatpak] := by
  decide

/-- C7 amended: in main.py the sequential execution/display order is fixed as
system-packages, then the helper adapters in probe order (yay then paru),
then sandbox-packages, then the source-checkout batch; in script.py the
helper adapters run FIRST (yay then paru), then system-packages, then
sandbox-packages, then the source-checkout batch. -/
theorem C7_amended_fixed_order (h : Host) (cfg : UserConfig)
    (hpar : cfg.parallel_updates = false)
    (hcp : cfg.enable_pacman = true) (ha : cfg.enable_aur = true)
    (hf : cfg.enable_flatpak = true) (hg : cfg.enable_git_repos = true)
    (hcu : h.hasHelper "checkupdates" = true)
    (hy : h.hasHelper "yay" = true) (hp : h.hasHelper "paru" = true)
    (hfp : h.hasHelper "flatpak" = true) :
    executedSources (Main.update_system h cfg false).events
      = [SourceId.pacman, SourceId.helper "yay", SourceId.helper "paru",
         SourceId.flatpak] ++ gitCheckOrder h
    ∧ executedSources (Script.update_system h).1
      = [SourceId.helper "yay", SourceId.helper "paru", SourceId.pacman,
         SourceId.flatpak] ++ gitCheckOrder h := by
  constructor
  · unfold Main.update_system Main.executionPhase Main.seqExec
    simp [hpar, hcp, hcu, ha, hf, hfp, hg, executedSources_preEvents,
      executedSources_postEvents, executedSources_notifyEvents,
      executedSources_pacman_update, executedSources_aurSeqLoop h cfg.noconfirm hy hp,
      executedSources_flatpak_update, executedSources_update_all]
  · unfold Script.update_system
    simp [hcu, hy, hp, hfp, executedSources_script_aur_update,
      executedSources_script_pacman_update, executedSources_script_flatpak_update,
      executedSources_script_update_all]

/-- Witness for C7 amended at a fully-available host. -/
theorem C7_amended_fixed_order_witness :
    executedSources (Main.update_system hostAll cfgAll false).events
      = [SourceId.pacman, SourceId.helper "yay", SourceId.helper "paru",
         SourceId.flatpak] ++ gitCheckOrder hostAll
    ∧ executedSources (Script.update_system hostAll).1
      = [SourceId.helper "yay", SourceId.helper "paru", SourceId.pacman,
         SourceId.flatpak] ++ gitCheckOrder hostAll :=
  C7_amended_fixed_order hostAll cfgAll rfl rfl rfl rfl rfl rfl rfl rfl rfl

@[simp] theorem eventTouches_printLn (s : SourceId) (m : String) :
    eventTouches s (Event.printLn m) = false := rfl

@[simp] theorem eventTouches_backup (s : SourceId) :
    eventTouches s Event.backupCreate = false := rfl

@[simp] theorem eventTouches_hooks (s : SourceId) (ph : String) :
    eventTouches s (Event.runHooks ph) = false := rfl

@[simp] theorem eventTouches_notify (s : SourceId) :
    eventTouches s Event.notifySend = false := rfl

@[simp] theorem eventTouches_check (s t : SourceId) :
    eventTouches s (Event.checkCall t) = decide (t = s) := rfl

@[simp] theorem eventTouches_apply (s t : SourceId) :
    eventTouches s (Event.applyCall t) = decide (t = s) := rfl

@[simp] theorem eventTouches_record (s t : SourceId) :
    eventTouches s (Event.recordUpdate t) = decide (t = s) := rfl

theorem executionPhase_raised_iff (h : Host) (cfg : UserConfig) (dr : Bool) :
    (Main.executionPhase h cfg dr).2.2
      = (cfg.enable_pacman && !(h.hasHelper "checkupdates")) := by
  unfold Main.executionPhase Main.parallelExec Main.seqExec
  cases hb : (cfg.parallel_updates && !dr) <;>
    cases hc : (cfg.enable_pacman && !(h.hasHelper "checkupdates")) <;>
      simp [hb, hc]

theorem update_system_status (h : Host) (cfg : UserConfig) (dr : Bool) :
    (Main.update_system h cfg dr).status
      = (if (cfg.enable_pacman && !(h.hasHelper "checkupdates")) = true
         then RunStatus.errored else RunStatus.completed) := by
  have hiff := executionPhase_raised_iff h cfg dr
  unfold Main.update_system
  cases hr : (Main.executionPhase h cfg dr).2.2 <;> rw [hr] at hiff <;>
    simp [hr, ← hiff]

theorem aur_update_events_empty (h : Host) (x : String) (nc : Bool)
    (hx : h.hasHelper x = false) : (Main.AURManager.update h x nc).2 = [] := by
  unfold Main.AURManager.update Main.AURManager.has_updates
  simp [hx]

theorem pacman_update_avoids (h : Host) (nc : Bool) {s : SourceId}
    (hs : ¬(SourceId.pacman = s)) :
    (Main.PacmanManager.update h nc).2.all (fun e => !(eventTouches s e)) = true := by
  unfold Main.PacmanManager.update Main.PacmanManager.has_updates
  cases hu : h.pacmanHasUpdates <;> cases ha : h.pacmanApplyOk <;>
    simp [hu, ha, List.all_append, hs]

theorem aur_update_avoids (h : Host) (x : String) (nc : Bool) {s : SourceId}
    (hs : ¬(SourceId.helper x = s)) :
    (Main.AURManager.update h x nc).2.all (fun e => !(eventTouches s e)) = true := by
  unfold Main.AURManager.update Main.AURManager.has_updates
  cases hh : h.hasHelper x <;> cases hu : h.aurHasUpdates x <;>
    cases ha : h.aurApplyOk x <;>
      simp [hh, hu, ha, List.all_append, hs]

theorem flatpak_update_avoids (h : Host) {s : SourceId}
    (hs : ¬(SourceId.flatpak = s)) :
    (Main.FlatpakManager.update h).2.all (fun e => !(eventTouches s e)) = true := by
  unfold Main.FlatpakManager.update Main.FlatpakManager.has_updates
  cases hc : h.flatpakCheckOk <;> cases hu : h.flatpakOutputHasUpdates <;>
    cases ha : h.flatpakApplyOk <;>
      simp [hc, hu, ha, List.all_append, hs]

theorem git_update_avoids (h : Host) (p : String) {s : SourceId}
    (hs : ∀ n, ¬(SourceId.git n = s)) :
    (Main.GitRepository.update h p).2.all (fun e => !(eventTouches s e)) = true := by
  unfold Main.GitRepository.update Main.GitRepository.has_new_commits
  cases hu : h.repoHasNewCommits p <;> cases hk : h.repoPullOk p <;>
    simp [hu, hk, List.all_append, hs]

theorem update_all_go_avoids (h : Host) (l : List String) {s : SourceId}
    (hs : ∀ n, ¬(SourceId.git n = s)) :
    (Main.RepositoryManager.update_all_go h l).2.all
        (fun e => !(eventTouches s e)) = true := by
  induction l with
  | nil => rfl
  | cons p rest ih =>
    unfold Main.RepositoryManager.update_all_go
    cases hpe : h.pathExists p <;> cases hv : Main.GitRepository.isValid h p <;>
      cases hu : (Main.GitRepository.update h p).1 <;>
        simp [hpe, hv, hu, List.all_append, ih, git_update_avoids h p hs, hs]

theorem update_all_avoids (h : Host) {s : SourceId}
    (hs : ∀ n, ¬(SourceId.git n = s)) :
    (Main.RepositoryManager.update_all h).2.all
        (fun e => !(eventTouches s e)) = true := by
  unfold Main.RepositoryManager.update_all
  cases he : h.repos.isEmpty <;>
    simp [he, update_all_go_avoids h h.repos hs]

theorem aurSeqLoop_avoids (h : Host) (dr nc : Bool) {s : SourceId}
    (h1 : (Main.AURManager.update h "yay" nc).2.all
        (fun e => !(eventTouches s e)) = true)
    (h2 : (Main.AURManager.update h "paru" nc).2.all
        (fun e => !(eventTouches s e)) = true) :
    (Main.aurSeqLoop h dr nc).2.all (fun e => !(eventTouches s e)) = true := by
  unfold Main.aurSeqLoop
  simp only [List.foldl]
  cases hy : h.hasHelper "yay" <;> cases hp : h.hasHelper "paru" <;> cases dr <;>
    simp [hy, hp, List.all_append, h1, h2]

theorem seqExec_avoids (h : Host) (cfg : UserConfig) (dr : Bool) {s : SourceId}
    (h1 : (Main.PacmanManager.update h cfg.noconfirm).2.all
        (fun e => !(eventTouches s e)) = true)
    (h2 : (Main.aurSeqLoop h dr cfg.noconfirm).2.all
        (fun e => !(eventTouches s e)) = true)
    (h3 : (cfg.enable_flatpak && h.hasHelper "flatpak") = false
          ∨ (Main.FlatpakManager.update h).2.all
              (fun e => !(eventTouches s e)) = true)
    (h4 : (Main.RepositoryManager.update_all h).2.all
        (fun e => !(eventTouches s e)) = true) :
    (Main.seqExec h cfg dr).2.1.all (fun e => !(eventTouches s e)) = true := by
  unfold Main.seqExec
  cases hr : (cfg.enable_pacman && !(h.hasHelper "checkupdates")) <;>
    [skip; simp [hr]]
  rcases h3 with h3 | h3
  · cases hcp : cfg.enable_pacman <;> cases dr <;> cases ha : cfg.enable_aur <;>
      cases hg : cfg.enable_git_repos <;>
        simp [hr, hcp, ha, h3, hg, List.all_append, List.all_map, Function.comp,
          h1, h2, h4]
  · cases hcp : cfg.enable_pacman <;> cases dr <;> cases ha : cfg.enable_aur <;>
      cases hfl : (cfg.enable_flatpak && h.hasHelper "flatpak") <;>
        cases hg : cfg.enable_git_repos <;>
          simp [hr, hcp, ha, hfl, h3, hg, List.all_append, List.all_map,
            Function.comp, h1, h2, h4]

theorem parallelExec_avoids (h : Host) (cfg : UserConfig) {s : SourceId}
    (h1 : (Main.PacmanManager.update h cfg.noconfirm).2.all
        (fun e => !(eventTouches s e)) = true)
    (h2 : (Main.AURManager.update h "yay" cfg.noconfirm).2.all
        (fun e => !(eventTouches s e)) = true)
    (h3 : (Main.AURManager.update h "paru" cfg.noconfirm).2.all
        (fun e => !(eventTouches s e)) = true)
    (h4 : (cfg.enable_flatpak && h.hasHelper "flatpak") = false
          ∨ (Main.FlatpakManager.update h).2.all
              (fun e => !(eventTouches s e)) = true)
    (h5 : (Main.RepositoryManager.update_all h).2.all
        (fun e => !(eventTouches s e)) = true) :
    (Main.parallelExec h cfg).2.1.all (fun e => !(eventTouches s e)) = true := by
  unfold Main.parallelExec
  cases hr : (cfg.enable_pacman && !(h.hasHelper "checkupdates")) <;>
    [skip; simp [hr]]
  rcases h4 with h4 | h4
  · cases hcp : cfg.enable_pacman <;>
      cases hyg : (cfg.enable_aur && h.hasHelper "yay") <;>
        cases hpg : (cfg.enable_aur && h.hasHelper "paru") <;>
          cases hg : cfg.enable_git_repos <;>
            simp [hr, hcp, hyg, hpg, h4, hg, List.all_append,
              h1, h2, h3, h5]
  · cases hcp : cfg.enable_pacman <;>
      cases hyg : (cfg.enable_aur && h.hasHelper "yay") <;>
        cases hpg : (cfg.enable_aur && h.hasHelper "paru") <;>
          cases hfl : (cfg.enable_flatpak && h.hasHelper "flatpak") <;>
            cases hg : cfg.enable_git_repos <;>
              simp [hr, hcp, hyg, hpg, hfl, h4, hg, List.all_append,
                h1, h2, h3, h5]

theorem executionPhase_avoids (h : Host) (cfg : UserConfig) (dr : Bool)
    {s : SourceId}
    (h1 : (Main.PacmanManager.update h cfg.noconfirm).2.all
        (fun e => !(eventTouches s e)) = true)
    (h2 : (Main.AURManager.update h "yay" cfg.noconfirm).2.all
        (fun e => !(eventTouches s e)) = true)
    (h3 : (Main.AURManager.update h "paru" cfg.noconfirm).2.all
        (fun e => !(eventTouches s e)) = true)
    (h4 : (cfg.enable_flatpak && h.hasHelper "flatpak") = false
          ∨ (Main.FlatpakManager.update h).2.all
              (fun e => !(eventTouches s e)) = true)
    (h5 : (Main.RepositoryManager.update_all h).2.all
        (fun e => !(eventTouches s e)) = true) :
    (Main.executionPhase h cfg dr).2.1.all (fun e => !(eventTouches s e)) = true := by
  unfold Main.executionPhase
  cases hb : (cfg.parallel_updates && !dr)
  · rw [if_neg (by simp [hb])]
    exact seqExec_avoids h cfg dr h1 (aurSeqLoop_avoids h dr cfg.noconfirm h2 h3) h4 h5
  · rw [if_pos rfl]
    exact parallelExec_avoids h cfg h1 h2 h3 h4 h5

theorem postEvents_countP_touches (dr : Bool) (s : SourceId) :
    (Main.postEvents dr).countP (eventTouches s) = 0 := by
  unfold Main.postEvents
  cases dr <;> simp [List.countP_cons]

theorem notifyEvents_countP_touches (dr : Bool) (t : Nat) (s : SourceId) :
    (Main.notifyEvents dr t).countP (eventTouches s) = 0 := by
  unfold Main.notifyEvents
  by_cases hc : (!dr && decide (0 < t)) = true <;>
    simp [hc, List.countP_cons]

theorem update_system_countP_touches (h : Host) (cfg : UserConfig) (dr : Bool)
    {s : SourceId}
    (hex : (Main.executionPhase h cfg dr).2.1.all
        (fun e => !(eventTouches s e)) = true) :
    (Main.update_system h cfg dr).events.countP (eventTouches s) = 0 := by
  have hexc : (Main.executionPhase h cfg dr).2.1.countP (eventTouches s) = 0 := by
    refine countP_eq_zero_of_all hex ?_
    intro e he
    revert he
    cases (eventTouches s e) <;> simp
  have hpre : (Main.preEvents cfg dr).countP (eventTouches s) = 0 :=
    preEvents_countP cfg dr (fun _ => rfl) rfl (fun _ => rfl)
  unfold Main.update_system
  cases hr : (Main.executionPhase h cfg dr).2.2 <;>
    simp [hr, List.countP_append, List.countP_cons, hexc, hpre,
      postEvents_countP_touches, notifyEvents_countP_touches]

theorem run_countP_yay (h : Host) (cfg : UserConfig) (dr : Bool)
    (hy : h.hasHelper "yay" = false) :
    (Main.update_system h cfg dr).events.countP
        (eventTouches (SourceId.helper "yay")) = 0 := by
  apply update_system_countP_touches
  exact executionPhase_avoids h cfg dr
    (pacman_update_avoids h cfg.noconfirm (by decide))
    (by rw [aur_update_events_empty h "yay" cfg.noconfirm hy]; rfl)
    (aur_update_avoids h "paru" cfg.noconfirm (by decide))
    (Or.inr (flatpak_update_avoids h (by decide)))
    (update_all_avoids h (fun n => by simp))

theorem run_countP_paru (h : Host) (cfg : UserConfig) (dr : Bool)
    (hp : h.hasHelper "paru" = false) :
    (Main.update_system h cfg dr).events.countP
        (eventTouches (SourceId.helper "paru")) = 0 := by
  apply update_system_countP_touches
  exact executionPhase_avoids h cfg dr
    (pacman_update_avoids h cfg.noconfirm (by decide))
    (aur_update_avoids h "yay" cfg.noconfirm (by decide))
    (by rw [aur_update_events_empty h "paru" cfg.noconfirm hp]; rfl)
    (Or.inr (flatpak_update_avoids h (by decide)))
    (update_all_avoids h (fun n => by simp))

theorem run_countP_flatpak (h : Host) (cfg : UserConfig) (dr : Bool)
    (hf : h.hasHelper "flatpak" = false) :
    (Main.update_system h cfg dr).events.countP
        (eventTouches SourceId.flatpak) = 0 := by
  apply update_system_countP_touches
  exact executionPhase_avoids h cfg dr
    (pacman_update_avoids h cfg.noconfirm (by decide))
    (aur_update_avoids h "yay" cfg.noconfirm (by decide))
    (aur_update_avoids h "paru" cfg.noconfirm (by decide))
    (Or.inl (by simp [hf]))
    (update_all_avoids h (fun n => by simp))

/-- C2 counterexample: on a host where checkupdates (the system-packages
update checker) is not on PATH and pacman is enabled, the run aborts in the
errored state with exit status 1 — contradicting the claim that
unavailability never aborts the run or produces an error exit. -/
theorem C2_counterexample :
    (Main.update_system hostNoCheckupdates cfgAll false).status
        = RunStatus.errored
    ∧ (Main.update_system hostNoCheckupdates cfgAll false).status.exitCode = 1
    ∧ hostNoCheckupdates.hasHelper "checkupdates" = false := by
  decide

/-- C2 amended: an AUR helper or flatpak whose program is unavailable is
filtered out before adapter creation and contributes no check, apply or
statistics event; but unavailability of the system-packages update checker
(checkupdates) with pacman enabled raises in PacmanManager's constructor and
aborts the whole run with an error exit — the run errors exactly in that
case. -/
theorem C2_amended_availability (h : Host) (cfg : UserConfig) (dr : Bool) :
    ((Main.update_system h cfg dr).status = RunStatus.errored
      ↔ (cfg.enable_pacman = true ∧ h.hasHelper "checkupdates" = false))
    ∧ (h.hasHelper "yay" = false →
        (Main.update_system h cfg dr).events.countP
            (eventTouches (SourceId.helper "yay")) = 0)
    ∧ (h.hasHelper "paru" = false →
        (Main.update_system h cfg dr).events.countP
            (eventTouches (SourceId.helper "paru")) = 0)
    ∧ (h.hasHelper "flatpak" = false →
        (Main.update_system h cfg dr).events.countP
            (eventTouches SourceId.flatpak) = 0) := by
  refine ⟨?_, run_countP_yay h cfg dr, run_countP_paru h cfg dr,
    run_countP_flatpak h cfg dr⟩
  rw [update_system_status]
  by_cases hc : (cfg.enable_pacman && !(h.hasHelper "checkupdates")) = true
  · rw [if_pos hc]
    simp only [Bool.and_eq_true, Bool.not_eq_true'] at hc
    simp [hc]
  · rw [if_neg hc]
    simp only [Bool.and_eq_true, Bool.not_eq_true'] at hc
    simp [hc]

/-- Witness for C2 amended: the errored-iff at a checkupdates-less host and
the yay-filtering at a yay-less host. -/
theorem C2_amended_availability_witness :
    ((Main.update_system hostNoCheckupdates cfgAll false).status
        = RunStatus.errored
      ↔ (cfgAll.enable_pacman = true
          ∧ hostNoCheckupdates.hasHelper "checkupdates" = false))
    ∧ (Main.update_system hostNoYay cfgAll false).events.countP
        (eventTouches (SourceId.helper "yay")) = 0 :=
  ⟨(C2_amended_availability hostNoCheckupdates cfgAll false).1,
   (C2_amended_availability hostNoYay cfgAll false).2.1 (by decide)⟩

theorem countP_record_zero_of_avoids {s : SourceId} {l : List Event}
    (hl : l.all (fun e => !(eventTouches s e)) = true) :
    l.countP (fun e => decide (e = Event.recordUpdate s)) = 0 := by
  refine countP_eq_zero_of_all hl ?_
  intro e he
  cases e <;> simp_all

theorem pacman_update_countP_record (h : Host) (nc : Bool) :
    (Main.PacmanManager.update h nc).2.countP
        (fun e => decide (e = Event.recordUpdate SourceId.pacman))
      = if (Main.PacmanManager.update h nc).1 then 1 else 0 := by
  unfold Main.PacmanManager.update Main.PacmanManager.has_updates
  cases hu : h.pacmanHasUpdates <;> cases ha : h.pacmanApplyOk <;>
    simp [hu, ha, List.countP_append, List.countP_cons]

theorem aur_update_countP_record (h : Host) (x : String) (nc : Bool) :
    (Main.AURManager.update h x nc).2.countP
        (fun e => decide (e = Event.recordUpdate (SourceId.helper x)))
      = if (Main.AURManager.update h x nc).1 then 1 else 0 := by
  unfold Main.AURManager.update Main.AURManager.has_updates
  cases hh : h.hasHelper x <;> cases hu : h.aurHasUpdates x <;>
    cases ha : h.aurApplyOk x <;>
      simp [hh, hu, ha, List.countP_append, List.countP_cons]

theorem flatpak_update_countP_record (h : Host) :
    (Main.FlatpakManager.update h).2.countP
        (fun e => decide (e = Event.recordUpdate SourceId.flatpak))
      = if (Main.FlatpakManager.update h).1 then 1 else 0 := by
  unfold Main.FlatpakManager.update Main.FlatpakManager.has_updates
  cases hc : h.flatpakCheckOk <;> cases hu : h.flatpakOutputHasUpdates <;>
    cases ha : h.flatpakApplyOk <;>
      simp [hc, hu, ha, List.countP_append, List.countP_cons]

theorem aurSeqLoop_countP_record_yay (h : Host) (nc : Bool) :
    (Main.aurSeqLoop h false nc).2.countP
        (fun e => decide (e = Event.recordUpdate (SourceId.helper "yay")))
      = if (Main.AURManager.update h "yay" nc).1 then 1 else 0 := by
  have hparu : (Main.AURManager.update h "paru" nc).2.countP
      (fun e => decide (e = Event.recordUpdate (SourceId.helper "yay"))) = 0 :=
    countP_record_zero_of_avoids (aur_update_avoids h "paru" nc (by decide))
  unfold Main.aurSeqLoop
  simp only [List.foldl]
  cases hy : h.hasHelper "yay" <;> cases hp : h.hasHelper "paru" <;>
    simp [hy, hp, List.countP_append, aur_update_countP_record, hparu,
      aur_update_val]

theorem aurSeqLoop_countP_record_paru (h : Host) (nc : Bool) :
    (Main.aurSeqLoop h false nc).2.countP
        (fun e => decide (e = Event.recordUpdate (SourceId.helper "paru")))
      = if (Main.AURManager.update h "paru" nc).1 then 1 else 0 := by
  have hyay : (Main.AURManager.update h "yay" nc).2.countP
      (fun e => decide (e = Event.recordUpdate (SourceId.helper "paru"))) = 0 :=
    countP_record_zero_of_avoids (aur_update_avoids h "yay" nc (by decide))
  unfold Main.aurSeqLoop
  simp only [List.foldl]
  cases hy : h.hasHelper "yay" <;> cases hp : h.hasHelper "paru" <;>
    simp [hy, hp, List.countP_append, aur_update_countP_record, hyay,
      aur_update_val]

theorem countP_snd_ite {α : Type} {c : Prop} [Decidable c] (p : Event → Bool)
    (a b : α × List Event) :
    ((if c then a else b).2).countP p = if c then a.2.countP p else b.2.countP p := by
  by_cases hc : c <;> simp [hc]

theorem countP_ite {c : Prop} [Decidable c] (p : Event → Bool)
    (l₁ l₂ : List Event) :
    (if c then l₁ else l₂).countP p = if c then l₁.countP p else l₂.countP p := by
  by_cases hc : c <;> simp [hc]

theorem notifyEvents_countP_record (dr : Bool) (t : Nat) (s : SourceId) :
    (Main.notifyEvents dr t).countP
        (fun e => decide (e = Event.recordUpdate s)) = 0 := by
  unfold Main.notifyEvents
  by_cases hc : (!dr && decide (0 < t)) = true <;> simp [hc]

theorem executionPhase_countP_record_pacman (h : Host) (cfg : UserConfig)
    (hnr : (cfg.enable_pacman && !(h.hasHelper "checkupdates")) = false) :
    (Main.executionPhase h cfg false).2.1.countP
        (fun e => decide (e = Event.recordUpdate SourceId.pacman))
      = if (cfg.enable_pacman
            && (Main.PacmanManager.update h cfg.noconfirm).1) = true
        then 1 else 0 := by
  have hyay : (Main.AURManager.update h "yay" cfg.noconfirm).2.countP
      (fun e => decide (e = Event.recordUpdate SourceId.pacman)) = 0 :=
    countP_record_zero_of_avoids (aur_update_avoids h "yay" cfg.noconfirm (by decide))
  have hparu : (Main.AURManager.update h "paru" cfg.noconfirm).2.countP
      (fun e => decide (e = Event.recordUpdate SourceId.pacman)) = 0 :=
    countP_record_zero_of_avoids (aur_update_avoids h "paru" cfg.noconfirm (by decide))
  have hloop : (Main.aurSeqLoop h false cfg.noconfirm).2.countP
      (fun e => decide (e = Event.recordUpdate SourceId.pacman)) = 0 :=
    countP_record_zero_of_avoids (aurSeqLoop_avoids h false cfg.noconfirm
      (aur_update_avoids h "yay" cfg.noconfirm (by decide))
      (aur_update_avoids h "paru" cfg.noconfirm (by decide)))
  have hfp : (Main.FlatpakManager.update h).2.countP
      (fun e => decide (e = Event.recordUpdate SourceId.pacman)) = 0 :=
    countP_record_zero_of_avoids (flatpak_update_avoids h (by decide))
  have hgit : (Main.RepositoryManager.update_all h).2.countP
      (fun e => decide (e = Event.recordUpdate SourceId.pacman)) = 0 :=
    countP_record_zero_of_avoids (update_all_avoids h (fun n => by simp))
  have hpac := pacman_update_countP_record h cfg.noconfirm
  unfold Main.executionPhase Main.seqExec Main.parallelExec
  cases hb : cfg.parallel_updates <;>
    simp [hb, hnr, List.countP_append, countP_snd_ite, countP_ite,
      List.countP_cons, ite_self, hloop, hyay, hparu, hfp, hgit, hpac] <;>
    cases hcp : cfg.enable_pacman <;> simp [hcp]

theorem executionPhase_countP_record_yay (h : Host) (cfg : UserConfig)
    (hnr : (cfg.enable_pacman && !(h.hasHelper "checkupdates")) = false) :
    (Main.executionPhase h cfg false).2.1.countP
        (fun e => decide (e = Event.recordUpdate (SourceId.helper "yay")))
      = if (cfg.enable_aur
            && (Main.AURManager.update h "yay" cfg.noconfirm).1) = true
        then 1 else 0 := by
  have hpacz : (Main.PacmanManager.update h cfg.noconfirm).2.countP
      (fun e => decide (e = Event.recordUpdate (SourceId.helper "yay"))) = 0 :=
    countP_record_zero_of_avoids (pacman_update_avoids h cfg.noconfirm (by decide))
  have hparu : (Main.AURManager.update h "paru" cfg.noconfirm).2.countP
      (fun e => decide (e = Event.recordUpdate (SourceId.helper "yay"))) = 0 :=
    countP_record_zero_of_avoids (aur_update_avoids h "paru" cfg.noconfirm (by decide))
  have hfp : (Main.FlatpakManager.update h).2.countP
      (fun e => decide (e = Event.recordUpdate (SourceId.helper "yay"))) = 0 :=
    countP_record_zero_of_avoids (flatpak_update_avoids h (by decide))
  have hgit : (Main.RepositoryManager.update_all h).2.countP
      (fun e => decide (e = Event.recordUpdate (SourceId.helper "yay"))) = 0 :=
    countP_record_zero_of_avoids (update_all_avoids h (fun n => by simp))
  have hloop := aurSeqLoop_countP_record_yay h cfg.noconfirm
  have haur := aur_update_countP_record h "yay" cfg.noconfirm
  unfold Main.executionPhase Main.seqExec Main.parallelExec
  cases hb : cfg.parallel_updates <;>
    simp [hb, hnr, List.countP_append, countP_snd_ite, countP_ite,
      List.countP_cons, ite_self, hpacz, hparu, hfp, hgit, hloop, haur] <;>
    cases ha : cfg.enable_aur <;> cases hyh : h.hasHelper "yay" <;>
      simp [ha, hyh, aur_update_val]

theorem executionPhase_countP_record_paru (h : Host) (cfg : UserConfig)
    (hnr : (cfg.enable_pacman && !(h.hasHelper "checkupdates")) = false) :
    (Main.executionPhase h cfg false).2.1.countP
        (fun e => decide (e = Event.recordUpdate (SourceId.helper "paru")))
      = if (cfg.enable_aur
            && (Main.AURManager.update h "paru" cfg.noconfirm).1) = true
        then 1 else 0 := by
  have hpacz : (Main.PacmanManager.update h cfg.noconfirm).2.countP
      (fun e => decide (e = Event.recordUpdate (SourceId.helper "paru"))) = 0 :=
    countP_record_zero_of_avoids (pacman_update_avoids h cfg.noconfirm (by decide))
  have hyay : (Main.AURManager.update h "yay" cfg.noconfirm).2.countP
      (fun e => decide (e = Event.recordUpdate (SourceId.helper "paru"))) = 0 :=
    countP_record_zero_of_avoids (aur_update_avoids h "yay" cfg.noconfirm (by decide))
  have hfp : (Main.FlatpakManager.update h).2.countP
      (fun e => decide (e = Event.recordUpdate (SourceId.helper "paru"))) = 0 :=
    countP_record_zero_of_avoids (flatpak_update_avoids h (by decide))
  have hgit : (Main.RepositoryManager.update_all h).2.countP
      (fun e => decide (e = Event.recordUpdate (SourceId.helper "paru"))) = 0 :=
    countP_record_zero_of_avoids (update_all_avoids h (fun n => by simp))
  have hloop := aurSeqLoop_countP_record_paru h cfg.noconfirm
  have haur := aur_update_countP_record h "paru" cfg.noconfirm
  unfold Main.executionPhase Main.seqExec Main.parallelExec
  cases hb : cfg.parallel_updates <;>
    simp [hb, hnr, List.countP_append, countP_snd_ite, countP_ite,
      List.countP_cons, ite_self, hpacz, hyay, hfp, hgit, hloop, haur] <;>
    cases ha : cfg.enable_aur <;> cases hph : h.hasHelper "paru" <;>
      simp [ha, hph, aur_update_val]

theorem executionPhase_countP_record_flatpak (h : Host) (cfg : UserConfig)
    (hnr : (cfg.enable_pacman && !(h.hasHelper "checkupdates")) = false) :
    (Main.executionPhase h cfg false).2.1.countP
        (fun e => decide (e = Event.recordUpdate SourceId.flatpak))
      = if (cfg.enable_flatpak && h.hasHelper "flatpak"
            && (Main.FlatpakManager.update h).1) = true
        then 1 else 0 := by
  have hpacz : (Main.PacmanManager.update h cfg.noconfirm).2.countP
      (fun e => decide (e = Event.recordUpdate SourceId.flatpak)) = 0 :=
    countP_record_zero_of_avoids (pacman_update_avoids h cfg.noconfirm (by decide))
  have hyay : (Main.AURManager.update h "yay" cfg.noconfirm).2.countP
      (fun e => decide (e = Event.recordUpdate SourceId.flatpak)) = 0 :=
    countP_record_zero_of_avoids (aur_update_avoids h "yay" cfg.noconfirm (by decide))
  have hparu : (Main.AURManager.update h "paru" cfg.noconfirm).2.countP
      (fun e => decide (e = Event.recordUpdate SourceId.flatpak)) = 0 :=
    countP_record_zero_of_avoids (aur_update_avoids h "paru" cfg.noconfirm (by decide))
  have hloop : (Main.aurSeqLoop h false cfg.noconfirm).2.countP
      (fun e => decide (e = Event.recordUpdate SourceId.flatpak)) = 0 :=
    countP_record_zero_of_avoids (aurSeqLoop_avoids h false cfg.noconfirm
      (aur_update_avoids h "yay" cfg.noconfirm (by decide))
      (aur_update_avoids h "paru" cfg.noconfirm (by decide)))
  have hgit : (Main.RepositoryManager.update_all h).2.countP
      (fun e => decide (e = Event.recordUpdate SourceId.flatpak)) = 0 :=
    countP_record_zero_of_avoids (update_all_avoids h (fun n => by simp))
  have hfpc := flatpak_update_countP_record h
  unfold Main.executionPhase Main.seqExec Main.parallelExec
  cases hb : cfg.parallel_updates <;>
    simp [hb, hnr, List.countP_append, countP_snd_ite, countP_ite,
      List.countP_cons, ite_self, hpacz, hyay, hparu, hloop, hgit, hfpc] <;>
    cases hfl : cfg.enable_flatpak <;> cases hfh : h.hasHelper "flatpak" <;>
      simp [hfl, hfh]

theorem record_not_mem_notifyEvents (dr : Bool) (t : Nat) (u : SourceId) :
    Event.recordUpdate u ∉ Main.notifyEvents dr t := by
  unfold Main.notifyEvents
  by_cases hc : (!dr && decide (0 < t)) = true <;> simp [hc]

theorem update_system_countP_record (h : Host) (cfg : UserConfig) (s : SourceId)
    (hnr : (Main.executionPhase h cfg false).2.2 = false) :
    (Main.update_system h cfg false).events.countP
        (fun e => decide (e = Event.recordUpdate s))
      = (Main.executionPhase h cfg false).2.1.countP
          (fun e => decide (e = Event.recordUpdate s)) := by
  have hpre : (Main.preEvents cfg false).countP
      (fun e => decide (e = Event.recordUpdate s)) = 0 :=
    preEvents_countP cfg false (fun _ => rfl) rfl (fun _ => rfl)
  unfold Main.update_system
  simp [hnr, List.countP_append, List.countP_cons, hpre, Main.postEvents,
    notifyEvents_countP_record]

/-- C4 counterexample: the statistics collaborator's record_update is
invoked from inside the adapter's update call — the record event appears in
the adapter's own trace, and in a full concrete run a record event occurs
strictly before the post-update hook, i.e. during the Execution Phase, not
after it. -/
theorem C4_counterexample :
    Event.recordUpdate (SourceId.helper "yay")
        ∈ (Main.AURManager.update hostAll "yay" false).2
    ∧ Event.recordUpdate SourceId.pacman
        ∈ ((Main.update_system hostAll cfgAll false).events.takeWhile
            (fun e => !(decide (e = Event.runHooks "post-update")))) := by
  decide

/-- C4 amended: for every successfully-updated single-target source,
record_update is invoked exactly once, but the invocation happens from
inside that adapter's update call during the Execution Phase — every record
event precedes the post-update hook event, and none occurs after it. -/
theorem C4_amended_record_timing (h : Host) (cfg : UserConfig)
    (hcu : cfg.enable_pacman = true → h.hasHelper "checkupdates" = true) :
    ((Main.update_system h cfg false).events.countP
        (fun e => decide (e = Event.recordUpdate SourceId.pacman))
      = if (cfg.enable_pacman
            && (Main.PacmanManager.update h cfg.noconfirm).1) = true
        then 1 else 0)
    ∧ ((Main.update_system h cfg false).events.countP
        (fun e => decide (e = Event.recordUpdate (SourceId.helper "yay")))
      = if (cfg.enable_aur
            && (Main.AURManager.update h "yay" cfg.noconfirm).1) = true
        then 1 else 0)
    ∧ ((Main.update_system h cfg false).events.countP
        (fun e => decide (e = Event.recordUpdate (SourceId.helper "paru")))
      = if (cfg.enable_aur
            && (Main.AURManager.update h "paru" cfg.noconfirm).1) = true
        then 1 else 0)
    ∧ ((Main.update_system h cfg false).events.countP
        (fun e => decide (e = Event.recordUpdate SourceId.flatpak))
      = if (cfg.enable_flatpak && h.hasHelper "flatpak"
            && (Main.FlatpakManager.update h).1) = true
        then 1 else 0)
    ∧ ∃ A B, (Main.update_system h cfg false).events
          = A ++ Event.runHooks "post-update" :: B
        ∧ ∀ u, Event.recordUpdate u ∉ B := by
  have hnrb : (cfg.enable_pacman && !(h.hasHelper "checkupdates")) = false := by
    cases hcp : cfg.enable_pacman
    · simp
    · simp [hcu hcp]
  have hnr : (Main.executionPhase h cfg false).2.2 = false := by
    rw [executionPhase_raised_iff]; exact hnrb
  refine ⟨?_, ?_, ?_, ?_, ?_⟩
  · rw [update_system_countP_record h cfg _ hnr]
    exact executionPhase_countP_record_pacman h cfg hnrb
  · rw [update_system_countP_record h cfg _ hnr]
    exact executionPhase_countP_record_yay h cfg hnrb
  · rw [update_system_countP_record h cfg _ hnr]
    exact executionPhase_countP_record_paru h cfg hnrb
  · rw [update_system_countP_record h cfg _ hnr]
    exact executionPhase_countP_record_flatpak h cfg hnrb
  · refine ⟨Main.preEvents cfg false ++ (Main.executionPhase h cfg false).2.1,
      Main.notifyEvents false (totalUpdates (Main.executionPhase h cfg false).1)
        ++ [Event.printLn "Update completed!"], ?_, ?_⟩
    · unfold Main.update_system Main.postEvents
      simp [hnr]
    · intro u hm
      rcases List.mem_append.mp hm with hm | hm
      · exact record_not_mem_notifyEvents _ _ _ hm
      · rw [List.mem_singleton] at hm
        cases hm

/-- Witness for C4 amended at a concrete host: pacman records exactly once
and no record event follows the post-update hook. -/
theorem C4_amended_record_timing_witness :
    ((Main.update_system hostAll cfgAll false).events.countP
        (fun e => decide (e = Event.recordUpdate SourceId.pacman))
      = if (cfgAll.enable_pacman
            && (Main.PacmanManager.update hostAll cfgAll.noconfirm).1) = true
        then 1 else 0)
    ∧ ∃ A B, (Main.update_system hostAll cfgAll false).events
          = A ++ Event.runHooks "post-update" :: B
        ∧ ∀ u, Event.recordUpdate u ∉ B := by
  have hthm := C4_amended_record_timing hostAll cfgAll (fun _ => rfl)
  exact ⟨hthm.1, hthm.2.2.2.2⟩

/-- Witness for C10: tracking a fresh path appends it once; re-adding an
already-tracked path changes nothing. -/
theorem C10_add_repo_nodup_witness :
    (Main.RepositoryManager.add_repo hostAll ["/a"] "/b").Nodup
    ∧ (hostAll.normalizeRepo "/b" ∈ ["/a"] →
        Main.RepositoryManager.add_repo hostAll ["/a"] "/b" = ["/a"])
    ∧ (hostAll.pathExists (hostAll.normalizeRepo "/b") = true →
        hostAll.isGitRepo (hostAll.normalizeRepo "/b") = true →
        hostAll.normalizeRepo "/b" ∉ ["/a"] →
        Main.RepositoryManager.add_repo hostAll ["/a"] "/b"
            = ["/a"] ++ [hostAll.normalizeRepo "/b"]
        ∧ (Main.RepositoryManager.add_repo hostAll ["/a"] "/b").count
            (hostAll.normalizeRepo "/b") = 1) :=
  C10_add_repo_nodup hostAll ["/a"] "/b" (by decide)

end Sysup
